import Mathlib

/-!
Shallow embedding of the cart/inventory subsystem of the job-platform
backend (src/controllers/cartController.js, src/middleware/validators.js,
src/routes/cart.js, src/middleware/auth.js).

Modelling conventions:
- Database integer columns and JS integer-valued numbers are Int.
- Prisma Decimal columns are a wrapper structure Decimal around Rat; the
  JS conversion Number(x) unwraps it.  JS arithmetic on prices is
  idealised as exact rational arithmetic; toFixed(2) followed by
  parseFloat is round2 (round half toward plus infinity on the scaled
  value, which is the ECMAScript tie-breaking rule: pick the larger n).
- A missing request parameter (parseInt(undefined) giving NaN) is none.
- Each controller returns the updated store paired with either a thrown
  error or the JSON cart view.  Writes performed before a throw persist,
  so error branches return the store as of the throw.
-/

/-- Prisma Decimal column value (a wrapper, not a plain JS number). -/
structure Decimal where
  val : Rat
deriving DecidableEq

/-- Number(d) on a Prisma Decimal. -/
def Decimal.toNumber (d : Decimal) : Rat := d.val

/-- Row of the product table (fields the cart subsystem reads). -/
structure Product where
  id : Int
  title : String
  price : Decimal
  thumbnail : String
  stock : Int
  isActive : Bool
deriving DecidableEq

/-- prisma.product.findUnique by id. -/
def Catalog := Int → Option Product

/-- Row of the cart table. -/
structure Cart where
  id : Int
  userId : Int
deriving DecidableEq

/-- Row of the cartItem table. -/
structure CartItem where
  id : Int
  cartId : Int
  productId : Int
  quantity : Int
deriving DecidableEq

/-- The cart-related tables plus autoincrement counters. -/
structure Store where
  carts : List Cart
  items : List CartItem
  nextCartId : Int
  nextItemId : Int
deriving DecidableEq

def emptyStore : Store := { carts := [], items := [], nextCartId := 1, nextItemId := 1 }

/-- prisma.cart.findUnique where userId. -/
def findCart (s : Store) (userId : Int) : Option Cart :=
  s.carts.find? (fun c => c.userId == userId)

/-- The items of one cart (the include items of a cart fetch). -/
def itemsOf (s : Store) (cartId : Int) : List CartItem :=
  s.items.filter (fun it => it.cartId == cartId)

/-- prisma.cart.create with data userId. -/
def createCart (s : Store) (userId : Int) : Store × Cart :=
  let c : Cart := { id := s.nextCartId, userId := userId }
  ({ s with carts := s.carts ++ [c], nextCartId := s.nextCartId + 1 }, c)

/-- The record created by prisma.cartItem.create. -/
def newItem (s : Store) (cartId productId quantity : Int) : CartItem :=
  { id := s.nextItemId, cartId := cartId, productId := productId, quantity := quantity }

/-- prisma.cartItem.create. -/
def insertItem (s : Store) (cartId productId quantity : Int) : Store :=
  { s with
    items := s.items ++ [newItem s cartId productId quantity],
    nextItemId := s.nextItemId + 1 }

/-- prisma.cartItem.update of the quantity field. -/
def setItemQuantity (s : Store) (itemId quantity : Int) : Store :=
  { s with
    items := s.items.map
      (fun it => if it.id == itemId then { it with quantity := quantity } else it) }

/-- prisma.cartItem.delete. -/
def deleteItem (s : Store) (itemId : Int) : Store :=
  { s with items := s.items.filter (fun it => !(it.id == itemId)) }

/-- prisma.cartItem.deleteMany where cartId. -/
def deleteAllItems (s : Store) (cartId : Int) : Store :=
  { s with items := s.items.filter (fun it => !(it.cartId == cartId)) }

/-- The four BadRequestError message templates of cartController.js, each
constructor one template literal, carrying its numeric holes. -/
inductive StockMsg where
  /-- Product is not available -/
  | notAvailable
  /-- Product is out of stock -/
  | outOfStock
  /-- Only (stock) items available -/
  | onlyAvailable (stock : Int)
  /-- Cannot add (quantity) more. Only (remaining) available -/
  | cannotAddMore (quantity remaining : Int)
deriving DecidableEq

/-- Operational errors thrown by the cart controllers and validators. -/
inductive CartError where
  | notFound (resource : String)
  | validation (message : String)
  | badRequest (message : StockMsg)
deriving DecidableEq

/-- Fallback used where a cart item joins a product id absent from the
catalog; unreachable for stores whose items all reference catalog rows. -/
def nullProduct : Product :=
  { id := 0, title := "", price := { val := 0 }, thumbnail := "", stock := 0, isActive := false }

def productOrNull (P : Catalog) (productId : Int) : Product :=
  (P productId).getD nullProduct

/-- Product snapshot inside an enriched view item.  The isActive field is
an Option because the select clause of the mutating controllers omits it
while the select clause of getCart includes it. -/
structure Snapshot where
  id : Int
  title : String
  price : Rat
  thumbnail : String
  stock : Int
  isActive : Option Bool
deriving DecidableEq

/-- Enriched cart item of the JSON response: the stored item spread
together with the product snapshot and the computed subtotal. -/
structure ViewItem where
  id : Int
  cartId : Int
  productId : Int
  quantity : Int
  product : Snapshot
  subtotal : Rat
deriving DecidableEq

/-- The cart document of the JSON response. -/
structure CartView where
  id : Int
  userId : Int
  items : List ViewItem
  totalItems : Int
  totalPrice : Rat
deriving DecidableEq

/-- parseFloat(x.toFixed(2)): round to 2 decimal places, ties picking the
larger candidate (the ECMAScript toFixed rule). -/
def round2 (x : Rat) : Rat := ((⌊x * 100 + 1 / 2⌋ : Int) : Rat) / 100

/-- Enrichment of one stored item, as in the map over cart.items:
spread the item, replace product.price by Number(price), add
subtotal = Number(product.price) * item.quantity.  withActive says
whether the select clause of the fetch included isActive. -/
def enrichItem (withActive : Bool) (P : Catalog) (it : CartItem) : ViewItem :=
  let p := productOrNull P it.productId
  { id := it.id, cartId := it.cartId, productId := it.productId, quantity := it.quantity,
    product := { id := p.id, title := p.title, price := p.price.toNumber,
                 thumbnail := p.thumbnail, stock := p.stock,
                 isActive := if withActive then some p.isActive else none },
    subtotal := p.price.toNumber * it.quantity }

/-- Build the response cart document from a fetched cart row: enriched
items, totalItems as the reduce of quantities, totalPrice as
parseFloat(totalPrice.toFixed(2)) of the reduce of subtotals. -/
def mkView (withActive : Bool) (P : Catalog) (s : Store) (c : Cart) : CartView :=
  let enriched := (itemsOf s c.id).map (enrichItem withActive P)
  { id := c.id, userId := c.userId, items := enriched,
    totalItems := (enriched.map (fun e => e.quantity)).sum,
    totalPrice := round2 ((enriched.map (fun e => e.subtotal)).sum) }

/-- Re-fetch of the updated cart by userId followed by view building, as
done at the end of the mutating controllers (their select clause omits
isActive).  The none branch mirrors a null fetch result and is
unreachable there because the cart was just found or created. -/
def fetchView (withActive : Bool) (P : Catalog) (s : Store) (userId : Int) : CartView :=
  match findCart s userId with
  | some c => mkView withActive P s c
  | none => { id := 0, userId := userId, items := [], totalItems := 0, totalPrice := 0 }

/-- getCart controller: userId comes from req.user.userId (the token);
find or lazily create the cart; enrich with the full product select
(including isActive) and respond. -/
def getCart (P : Catalog) (s : Store) (userId : Int) : Store × CartView :=
  match findCart s userId with
  | some c => (s, mkView true P s c)
  | none =>
      let sc := createCart s userId
      (sc.1, mkView true P sc.1 sc.2)

/-- addToCart controller: userId from req.user.userId (the token),
productId and quantity from the body (quantity defaulting to 1 at the
destructuring).  Checks product existence, isActive, stock not 0, stock
against the requested quantity; then merges into an existing item for the
product (failing with the remaining-increment message when the summed
quantity exceeds stock) or inserts a new item; finally re-fetches and
responds. -/
def addToCart (P : Catalog) (s : Store) (userId productId quantity : Int) :
    Store × Except CartError CartView :=
  if userId < 1 then (s, .error (.validation "Invalid user ID")) else
  match P productId with
  | none => (s, .error (.notFound "Product"))
  | some product =>
    if product.isActive = false then (s, .error (.badRequest .notAvailable)) else
    if product.stock < 1 then (s, .error (.badRequest .outOfStock)) else
    if product.stock < quantity then
      (s, .error (.badRequest (.onlyAvailable product.stock))) else
    let sc : Store × Cart :=
      match findCart s userId with
      | some c => (s, c)
      | none => createCart s userId
    match (itemsOf sc.1 sc.2.id).find? (fun it => it.productId == productId) with
    | some existingItem =>
        let newQuantity := existingItem.quantity + quantity
        if product.stock < newQuantity then
          (sc.1, .error (.badRequest
            (.cannotAddMore quantity (product.stock - existingItem.quantity))))
        else
          let s2 := setItemQuantity sc.1 existingItem.id newQuantity
          (s2, .ok (fetchView false P s2 userId))
    | none =>
        let s2 := insertItem sc.1 sc.2.id productId quantity
        (s2, .ok (fetchView false P s2 userId))

/-- updateCartItem controller body once userId and productId are resolved
integers: validate them, find the cart and the item, fetch the product,
reject quantities above stock, then delete the item when quantity is
below 1 (removal shortcut) or set the quantity; re-fetch and respond. -/
def updateCartItem (P : Catalog) (s : Store) (userId productId quantity : Int) :
    Store × Except CartError CartView :=
  if userId < 1 then (s, .error (.validation "Invalid user ID")) else
  if productId < 1 then (s, .error (.validation "Invalid product ID")) else
  match findCart s userId with
  | none => (s, .error (.notFound "Cart"))
  | some cart =>
    match (itemsOf s cart.id).find? (fun it => it.productId == productId) with
    | none => (s, .error (.notFound "Cart item"))
    | some cartItem =>
      match P productId with
      | none => (s, .error (.notFound "Product"))
      | some product =>
        if product.stock < quantity then
          (s, .error (.badRequest (.onlyAvailable product.stock)))
        else if quantity < 1 then
          let s2 := deleteItem s cartItem.id
          (s2, .ok (fetchView false P s2 userId))
        else
          let s2 := setItemQuantity s cartItem.id quantity
          (s2, .ok (fetchView false P s2 userId))

/-- removeFromCart controller body once userId and productId are resolved
integers: validate them, find the cart and the item, delete it
unconditionally, re-fetch and respond. -/
def removeFromCart (P : Catalog) (s : Store) (userId productId : Int) :
    Store × Except CartError CartView :=
  if userId < 1 then (s, .error (.validation "Invalid user ID")) else
  if productId < 1 then (s, .error (.validation "Invalid product ID")) else
  match findCart s userId with
  | none => (s, .error (.notFound "Cart"))
  | some cart =>
    match (itemsOf s cart.id).find? (fun it => it.productId == productId) with
    | none => (s, .error (.notFound "Cart item"))
    | some cartItem =>
      let s2 := deleteItem s cartItem.id
      (s2, .ok (fetchView false P s2 userId))

/-- clearCart controller body once userId is a resolved integer: validate
it, find the cart (NotFound when absent), delete all its items, re-fetch
the cart row, and respond with a view whose items, totalItems and
totalPrice fields are the literals of the source (the empty list, 0 and
0), spread over the re-fetched cart row. -/
def clearCart (P : Catalog) (s : Store) (userId : Int) :
    Store × Except CartError CartView :=
  if userId < 1 then (s, .error (.validation "Invalid user ID")) else
  match findCart s userId with
  | none => (s, .error (.notFound "Cart"))
  | some cart =>
    let s2 := deleteAllItems s cart.id
    let refetched := (findCart s2 userId).getD cart
    (s2, .ok { id := refetched.id, userId := refetched.userId,
               items := [], totalItems := 0, totalPrice := 0 })

/-!  The HTTP wiring: routes/cart.js mounts the five controllers behind
the authenticate middleware, with the express-validator chains
validateCartItem and validateQuantityUpdate on the two body-carrying
routes.  The route patterns bind no userId parameter, so in the three
controllers that read req.params.userId that parameter is absent. -/

/-- The req.user object attached by the authenticate middleware after
verifying the bearer token. -/
structure AuthUser where
  userId : Int
deriving DecidableEq

def quantityRangeMsg : String := "Quantity must be between 1 and 100"

def productIdRangeMsg : String := "Product ID must be a positive integer"

/-- body(productId).isInt with min 1: present and at least 1. -/
def intAtLeast (v : Option Int) (lo : Int) : Bool :=
  match v with
  | none => false
  | some n => lo ≤ n

/-- body(quantity).isInt with min 1 and max 100: present and in range. -/
def intInRange (v : Option Int) (lo hi : Int) : Bool :=
  match v with
  | none => false
  | some n => lo ≤ n && n ≤ hi

/-- validateCartItem chain: collect the messages of the failed checks and
join them, as the validate helper does with intercalation by a comma. -/
def validateCartItem (productId quantity : Option Int) : Option String :=
  let msgs :=
    (if intAtLeast productId 1 then [] else [productIdRangeMsg]) ++
    (if intInRange quantity 1 100 then [] else [quantityRangeMsg])
  match msgs with
  | [] => none
  | _ => some (String.intercalate ", " msgs)

/-- validateQuantityUpdate chain. -/
def validateQuantityUpdate (quantity : Option Int) : Option String :=
  if intInRange quantity 1 100 then none else some quantityRangeMsg

/-- parseInt over a possibly absent route parameter: absent gives NaN,
modelled as none; the subsequent isNaN check then throws. -/
def resolveParamUserId (paramUserId : Option Int) (P : Catalog) (s : Store)
    (k : Int → Store × Except CartError CartView) : Store × Except CartError CartView :=
  match paramUserId with
  | none => (s, .error (.validation "Invalid user ID"))
  | some userId => k userId

/-- GET /api/cart wired route: authenticate then getCart, which reads the
owner from req.user.userId. -/
def getCartRoute (P : Catalog) (s : Store) (auth : AuthUser) : Store × CartView :=
  getCart P s auth.userId

/-- POST /api/cart/items wired route: authenticate, validateCartItem,
then addToCart, which reads the owner from req.user.userId and productId
and quantity from the body (quantity defaulting to 1). -/
def postCartItemsRoute (P : Catalog) (s : Store) (auth : AuthUser)
    (bodyProductId bodyQuantity : Option Int) : Store × Except CartError CartView :=
  match validateCartItem bodyProductId bodyQuantity with
  | some msg => (s, .error (.validation msg))
  | none => addToCart P s auth.userId (bodyProductId.getD 0) (bodyQuantity.getD 1)

/-- PUT /api/cart/items/:productId wired route: authenticate,
validateQuantityUpdate, then updateCartItem, which reads
parseInt(req.params.userId) although the route pattern binds no userId
parameter, so that value is always absent. -/
def putCartItemRoute (P : Catalog) (s : Store) (auth : AuthUser)
    (paramProductId : Int) (bodyQuantity : Option Int) : Store × Except CartError CartView :=
  match validateQuantityUpdate bodyQuantity with
  | some msg => (s, .error (.validation msg))
  | none =>
      resolveParamUserId none P s
        (fun userId => updateCartItem P s userId paramProductId (bodyQuantity.getD 0))

/-- DELETE /api/cart/items/:productId wired route: authenticate then
removeFromCart, which also reads the absent req.params.userId. -/
def deleteCartItemRoute (P : Catalog) (s : Store) (auth : AuthUser)
    (paramProductId : Int) : Store × Except CartError CartView :=
  resolveParamUserId none P s (fun userId => removeFromCart P s userId paramProductId)

/-- DELETE /api/cart wired route: authenticate then clearCart, which also
reads the absent req.params.userId. -/
def deleteCartRoute (P : Catalog) (s : Store) (auth : AuthUser) :
    Store × Except CartError CartView :=
  resolveParamUserId none P s (fun userId => clearCart P s userId)

deriving instance DecidableEq for Except

/-! Basic facts about the store primitives. -/

theorem findCart_insertItem (s : Store) (cid pid q u : Int) :
    findCart (insertItem s cid pid q) u = findCart s u := rfl

theorem findCart_setItemQuantity (s : Store) (iid q u : Int) :
    findCart (setItemQuantity s iid q) u = findCart s u := rfl

theorem findCart_deleteItem (s : Store) (iid u : Int) :
    findCart (deleteItem s iid) u = findCart s u := rfl

theorem findCart_deleteAllItems (s : Store) (cid u : Int) :
    findCart (deleteAllItems s cid) u = findCart s u := rfl

theorem mem_itemsOf {s : Store} {cid : Int} {it : CartItem} :
    it ∈ itemsOf s cid ↔ it ∈ s.items ∧ it.cartId = cid := by
  simp [itemsOf, List.mem_filter]

theorem findCart_eq_some {s : Store} {u : Int} {c : Cart}
    (h : findCart s u = some c) : c ∈ s.carts ∧ c.userId = u := by
  have hmem := List.mem_of_find?_eq_some h
  have hp := List.find?_some h
  simp only [beq_iff_eq] at hp
  exact ⟨hmem, hp⟩

theorem findCart_createCart_self (s : Store) (u : Int)
    (h : findCart s u = none) : findCart (createCart s u).1 u = some (createCart s u).2 := by
  simp only [findCart, createCart, List.find?_append]
  rw [findCart] at h
  rw [h]
  simp

theorem itemsOf_createCart (s : Store) (u : Int) (cid : Int) :
    itemsOf (createCart s u).1 cid = itemsOf s cid := rfl

theorem find?_eq_none_iff {l : List CartItem} {p : CartItem → Bool} :
    l.find? p = none ↔ ∀ x ∈ l, ¬ p x := by
  simp [List.find?_eq_none]

/-! Branch characterizations of the controllers, used by the claim
theorems below.  Hypotheses name the data of the branch taken. -/

theorem addToCart_product_missing (P : Catalog) (s : Store) (u pid q : Int)
    (hu : 1 ≤ u) (hP : P pid = none) :
    addToCart P s u pid q = (s, .error (.notFound "Product")) := by
  simp only [addToCart, hP]
  rw [if_neg (by omega)]

theorem addToCart_inactive (P : Catalog) (s : Store) (u pid q : Int)
    {product : Product} (hu : 1 ≤ u) (hP : P pid = some product)
    (hact : product.isActive = false) :
    addToCart P s u pid q = (s, .error (.badRequest .notAvailable)) := by
  simp only [addToCart, hP]
  rw [if_neg (by omega), if_pos hact]

theorem addToCart_quantity_over_stock (P : Catalog) (s : Store) (u pid q : Int)
    {product : Product} (hu : 1 ≤ u) (hP : P pid = some product)
    (hact : product.isActive = true) (hstock1 : 1 ≤ product.stock)
    (hover : product.stock < q) :
    addToCart P s u pid q = (s, .error (.badRequest (.onlyAvailable product.stock))) := by
  simp only [addToCart, hP]
  rw [if_neg (by omega), if_neg (by simp [hact]), if_neg (by omega), if_pos hover]

theorem addToCart_insert_existing_cart (P : Catalog) (s : Store) (u pid q : Int)
    {product : Product} {cart : Cart} (hu : 1 ≤ u) (hP : P pid = some product)
    (hact : product.isActive = true) (hq1 : 1 ≤ q) (hle : q ≤ product.stock)
    (hc : findCart s u = some cart)
    (hnone : (itemsOf s cart.id).find? (fun it => it.productId == pid) = none) :
    addToCart P s u pid q =
      (insertItem s cart.id pid q, .ok (fetchView false P (insertItem s cart.id pid q) u)) := by
  simp only [addToCart, hP]
  rw [if_neg (by omega), if_neg (by simp [hact]), if_neg (by omega), if_neg (by omega), hc]
  simp only [hnone]

theorem addToCart_insert_new_cart (P : Catalog) (s : Store) (u pid q : Int)
    {product : Product} (hu : 1 ≤ u) (hP : P pid = some product)
    (hact : product.isActive = true) (hq1 : 1 ≤ q) (hle : q ≤ product.stock)
    (hc : findCart s u = none) (hfresh : itemsOf s s.nextCartId = []) :
    addToCart P s u pid q =
      (insertItem (createCart s u).1 (createCart s u).2.id pid q,
       .ok (fetchView false P (insertItem (createCart s u).1 (createCart s u).2.id pid q) u)) := by
  simp only [addToCart, hP]
  rw [if_neg (by omega), if_neg (by simp [hact]), if_neg (by omega), if_neg (by omega), hc]
  have hempty : (itemsOf (createCart s u).1 (createCart s u).2.id).find?
      (fun it => it.productId == pid) = none := by
    rw [itemsOf_createCart]
    show (itemsOf s s.nextCartId).find? _ = none
    rw [hfresh]
    rfl
  simp only [hempty]

theorem addToCart_merge_over_stock (P : Catalog) (s : Store) (u pid q : Int)
    {product : Product} {cart : Cart} {existingItem : CartItem}
    (hu : 1 ≤ u) (hP : P pid = some product)
    (hact : product.isActive = true) (hstock1 : 1 ≤ product.stock) (hle : q ≤ product.stock)
    (hc : findCart s u = some cart)
    (he : (itemsOf s cart.id).find? (fun it => it.productId == pid) = some existingItem)
    (hover : product.stock < existingItem.quantity + q) :
    addToCart P s u pid q =
      (s, .error (.badRequest (.cannotAddMore q (product.stock - existingItem.quantity)))) := by
  simp only [addToCart, hP]
  rw [if_neg (by omega), if_neg (by simp [hact]), if_neg (by omega), if_neg (by omega), hc]
  simp only [he]
  rw [if_pos hover]

theorem addToCart_merge_ok (P : Catalog) (s : Store) (u pid q : Int)
    {product : Product} {cart : Cart} {existingItem : CartItem}
    (hu : 1 ≤ u) (hP : P pid = some product)
    (hact : product.isActive = true) (hstock1 : 1 ≤ product.stock) (hle : q ≤ product.stock)
    (hc : findCart s u = some cart)
    (he : (itemsOf s cart.id).find? (fun it => it.productId == pid) = some existingItem)
    (hfits : existingItem.quantity + q ≤ product.stock) :
    addToCart P s u pid q =
      (setItemQuantity s existingItem.id (existingItem.quantity + q),
       .ok (fetchView false P (setItemQuantity s existingItem.id (existingItem.quantity + q)) u)) := by
  simp only [addToCart, hP]
  rw [if_neg (by omega), if_neg (by simp [hact]), if_neg (by omega), if_neg (by omega), hc]
  simp only [he]
  rw [if_neg (by omega)]

theorem updateCartItem_stock_exceeded (P : Catalog) (s : Store) (u pid q : Int)
    {cart : Cart} {cartItem : CartItem} {product : Product}
    (hu : 1 ≤ u) (hpid : 1 ≤ pid) (hc : findCart s u = some cart)
    (hi : (itemsOf s cart.id).find? (fun it => it.productId == pid) = some cartItem)
    (hP : P pid = some product) (hover : product.stock < q) :
    updateCartItem P s u pid q = (s, .error (.badRequest (.onlyAvailable product.stock))) := by
  simp only [updateCartItem, hc, hi, hP]
  rw [if_neg (by omega), if_neg (by omega), if_pos hover]

theorem updateCartItem_delete (P : Catalog) (s : Store) (u pid q : Int)
    {cart : Cart} {cartItem : CartItem} {product : Product}
    (hu : 1 ≤ u) (hpid : 1 ≤ pid) (hc : findCart s u = some cart)
    (hi : (itemsOf s cart.id).find? (fun it => it.productId == pid) = some cartItem)
    (hP : P pid = some product) (hstock : 0 ≤ product.stock) (hq : q < 1) :
    updateCartItem P s u pid q =
      (deleteItem s cartItem.id, .ok (fetchView false P (deleteItem s cartItem.id) u)) := by
  simp only [updateCartItem, hc, hi, hP]
  rw [if_neg (by omega), if_neg (by omega), if_neg (by omega), if_pos hq]

theorem updateCartItem_set (P : Catalog) (s : Store) (u pid q : Int)
    {cart : Cart} {cartItem : CartItem} {product : Product}
    (hu : 1 ≤ u) (hpid : 1 ≤ pid) (hc : findCart s u = some cart)
    (hi : (itemsOf s cart.id).find? (fun it => it.productId == pid) = some cartItem)
    (hP : P pid = some product) (hq : 1 ≤ q) (hle : q ≤ product.stock) :
    updateCartItem P s u pid q =
      (setItemQuantity s cartItem.id q, .ok (fetchView false P (setItemQuantity s cartItem.id q) u)) := by
  simp only [updateCartItem, hc, hi, hP]
  rw [if_neg (by omega), if_neg (by omega), if_neg (by omega), if_neg (by omega)]

theorem removeFromCart_found (P : Catalog) (s : Store) (u pid : Int)
    {cart : Cart} {cartItem : CartItem}
    (hu : 1 ≤ u) (hpid : 1 ≤ pid) (hc : findCart s u = some cart)
    (hi : (itemsOf s cart.id).find? (fun it => it.productId == pid) = some cartItem) :
    removeFromCart P s u pid =
      (deleteItem s cartItem.id, .ok (fetchView false P (deleteItem s cartItem.id) u)) := by
  simp only [removeFromCart, hc, hi]
  rw [if_neg (by omega), if_neg (by omega)]

theorem clearCart_no_cart (P : Catalog) (s : Store) (u : Int)
    (hu : 1 ≤ u) (hc : findCart s u = none) :
    clearCart P s u = (s, .error (.notFound "Cart")) := by
  simp only [clearCart, hc]
  rw [if_neg (by omega)]

theorem clearCart_found (P : Catalog) (s : Store) (u : Int) {cart : Cart}
    (hu : 1 ≤ u) (hc : findCart s u = some cart) :
    clearCart P s u =
      (deleteAllItems s cart.id,
       .ok { id := cart.id, userId := cart.userId, items := [],
             totalItems := 0, totalPrice := 0 }) := by
  simp only [clearCart, hc]
  rw [if_neg (by omega)]
  have : findCart (deleteAllItems s cart.id) u = some cart := by
    rw [findCart_deleteAllItems, hc]
  simp only [this, Option.getD_some]

/-! Shape of successful responses: every ok result of a mutating
controller is the view built by mkView from the re-fetched cart. -/

theorem findCart_getOrCreate (s : Store) (u : Int) :
    findCart (match findCart s u with | some c => (s, c) | none => createCart s u).1 u
      = some (match findCart s u with | some c => (s, c) | none => createCart s u).2 := by
  cases h : findCart s u with
  | some c => simp [h]
  | none => simp only [h]; exact findCart_createCart_self s u h

theorem addToCart_ok_view {P : Catalog} {s : Store} {u pid q : Int} {s' : Store} {v : CartView}
    (h : addToCart P s u pid q = (s', .ok v)) :
    ∃ c, findCart s' u = some c ∧ v = mkView false P s' c := by
  have hgc := findCart_getOrCreate s u
  revert h
  simp only [addToCart]
  split
  · intro h; simp at h
  · split
    · intro h; simp at h
    · split
      · intro h; simp at h
      · split
        · intro h; simp at h
        · split
          · intro h; simp at h
          · split
            · split
              · intro h; simp at h
              · intro h
                rw [Prod.mk.injEq] at h
                obtain ⟨hs, hv⟩ := h
                rw [Except.ok.injEq] at hv
                subst hs hv
                refine ⟨(match findCart s u with | some c => (s, c) | none => createCart s u).2,
                  ?_, ?_⟩
                · rw [findCart_setItemQuantity]; exact hgc
                · simp only [fetchView, findCart_setItemQuantity, hgc]
            · intro h
              rw [Prod.mk.injEq] at h
              obtain ⟨hs, hv⟩ := h
              rw [Except.ok.injEq] at hv
              subst hs hv
              refine ⟨(match findCart s u with | some c => (s, c) | none => createCart s u).2,
                ?_, ?_⟩
              · rw [findCart_insertItem]; exact hgc
              · simp only [fetchView, findCart_insertItem, hgc]

theorem updateCartItem_ok_view {P : Catalog} {s : Store} {u pid q : Int} {s' : Store} {v : CartView}
    (h : updateCartItem P s u pid q = (s', .ok v)) :
    ∃ c, findCart s' u = some c ∧ v = mkView false P s' c := by
  revert h
  simp only [updateCartItem]
  split
  · intro h; simp at h
  · split
    · intro h; simp at h
    · split
      · intro h; simp at h
      · rename_i cart hc
        split
        · intro h; simp at h
        · rename_i cartItem hi
          split
          · intro h; simp at h
          · split
            · intro h; simp at h
            · split
              · intro h
                rw [Prod.mk.injEq] at h
                obtain ⟨hs, hv⟩ := h
                rw [Except.ok.injEq] at hv
                subst hs hv
                have hfind : findCart (deleteItem s cartItem.id) u = some cart := by
                  rw [findCart_deleteItem]; exact hc
                exact ⟨cart, hfind, by simp only [fetchView, hfind]⟩
              · intro h
                rw [Prod.mk.injEq] at h
                obtain ⟨hs, hv⟩ := h
                rw [Except.ok.injEq] at hv
                subst hs hv
                have hfind : findCart (setItemQuantity s cartItem.id q) u = some cart := by
                  rw [findCart_setItemQuantity]; exact hc
                exact ⟨cart, hfind, by simp only [fetchView, hfind]⟩

theorem removeFromCart_ok_view {P : Catalog} {s : Store} {u pid : Int} {s' : Store} {v : CartView}
    (h : removeFromCart P s u pid = (s', .ok v)) :
    ∃ c, findCart s' u = some c ∧ v = mkView false P s' c := by
  revert h
  simp only [removeFromCart]
  split
  · intro h; simp at h
  · split
    · intro h; simp at h
    · split
      · intro h; simp at h
      · rename_i cart hc
        split
        · intro h; simp at h
        · rename_i cartItem hi
          intro h
          rw [Prod.mk.injEq] at h
          obtain ⟨hs, hv⟩ := h
          rw [Except.ok.injEq] at hv
          subst hs hv
          have hfind : findCart (deleteItem s cartItem.id) u = some cart := by
            rw [findCart_deleteItem]; exact hc
          exact ⟨cart, hfind, by simp only [fetchView, hfind]⟩

theorem clearCart_ok_view {P : Catalog} {s : Store} {u : Int} {s' : Store} {v : CartView}
    (h : clearCart P s u = (s', .ok v)) :
    ∃ c, findCart s u = some c ∧ s' = deleteAllItems s c.id ∧
      v = { id := c.id, userId := c.userId, items := [],
            totalItems := 0, totalPrice := 0 } := by
  revert h
  simp only [clearCart]
  split
  · intro h; simp at h
  · split
    · intro h; simp at h
    · rename_i cart hc
      intro h
      rw [Prod.mk.injEq] at h
      obtain ⟨hs, hv⟩ := h
      rw [Except.ok.injEq] at hv
      have hfind : findCart (deleteAllItems s cart.id) u = some cart := by
        rw [findCart_deleteAllItems]; exact hc
      rw [hfind] at hv
      exact ⟨cart, hc, hs.symm, hv.symm⟩

/-- Spec-side formula for totalItems: the sum of the stored quantities of
the cart. -/
def specTotalItems (s : Store) (cartId : Int) : Int :=
  ((itemsOf s cartId).map (fun it => it.quantity)).sum

/-- Spec-side formula for totalPrice: round2 of the sum over the stored
items of current catalog price times quantity. -/
def specTotalPrice (P : Catalog) (s : Store) (cartId : Int) : Rat :=
  round2 (((itemsOf s cartId).map
    (fun it => (productOrNull P it.productId).price.toNumber * it.quantity)).sum)

theorem mkView_totalItems (w : Bool) (P : Catalog) (s : Store) (c : Cart) :
    (mkView w P s c).totalItems = specTotalItems s c.id := by
  simp only [mkView, specTotalItems, List.map_map]
  rfl

theorem mkView_totalPrice (w : Bool) (P : Catalog) (s : Store) (c : Cart) :
    (mkView w P s c).totalPrice = specTotalPrice P s c.id := by
  simp only [mkView, specTotalPrice, List.map_map]
  rfl

theorem mkView_items (w : Bool) (P : Catalog) (s : Store) (c : Cart) :
    (mkView w P s c).items = (itemsOf s c.id).map (enrichItem w P) := rfl

theorem mkView_id (w : Bool) (P : Catalog) (s : Store) (c : Cart) :
    (mkView w P s c).id = c.id := rfl

theorem itemsOf_deleteAllItems_self (s : Store) (cartId : Int) :
    itemsOf (deleteAllItems s cartId) cartId = [] := by
  simp only [itemsOf, deleteAllItems]
  induction s.items with
  | nil => rfl
  | cons hd tl ih =>
      by_cases hc : hd.cartId = cartId <;> simp_all [List.filter_cons]

theorem round2_zero : round2 0 = 0 := by
  norm_num [round2]

theorem getCart_view (P : Catalog) (s : Store) (u : Int) :
    ∃ c, findCart (getCart P s u).1 u = some c ∧
      (getCart P s u).2 = mkView true P (getCart P s u).1 c := by
  cases h : findCart s u with
  | some c => exact ⟨c, by simp [getCart, h], by simp [getCart, h]⟩
  | none =>
      refine ⟨(createCart s u).2, ?_, ?_⟩ <;>
        simp [getCart, h, findCart_createCart_self s u h]

theorem map_totals_eq {P : Catalog} {s' : Store} {r : Except CartError CartView}
    (h : ∀ v, r = .ok v →
      v.totalItems = specTotalItems s' v.id ∧ v.totalPrice = specTotalPrice P s' v.id) :
    r.map (fun v => (v.totalItems, v.totalPrice)) =
      r.map (fun v => (specTotalItems s' v.id, specTotalPrice P s' v.id)) := by
  cases r with
  | error e => rfl
  | ok v => simp only [Except.map, (h v rfl).1, (h v rfl).2]

/-- C5: after every operation the returned cart view has totalItems equal
to the sum of the stored item quantities and totalPrice equal to round2
(half-up, applied once to the final sum, not per item) of the sum over
the stored items of current catalog price times quantity, recomputed from
the post-operation store and the catalog passed to that very call (so a
price change in the catalog is reflected on the next call; nothing is
cached). -/
theorem totals_recomputed_each_call (P : Catalog) (s : Store) (u pid q : Int) :
    ((getCart P s u).2.totalItems = specTotalItems (getCart P s u).1 (getCart P s u).2.id ∧
     (getCart P s u).2.totalPrice = specTotalPrice P (getCart P s u).1 (getCart P s u).2.id) ∧
    ((addToCart P s u pid q).2.map (fun v => (v.totalItems, v.totalPrice)) =
       (addToCart P s u pid q).2.map (fun v =>
         (specTotalItems (addToCart P s u pid q).1 v.id,
          specTotalPrice P (addToCart P s u pid q).1 v.id))) ∧
    ((updateCartItem P s u pid q).2.map (fun v => (v.totalItems, v.totalPrice)) =
       (updateCartItem P s u pid q).2.map (fun v =>
         (specTotalItems (updateCartItem P s u pid q).1 v.id,
          specTotalPrice P (updateCartItem P s u pid q).1 v.id))) ∧
    ((removeFromCart P s u pid).2.map (fun v => (v.totalItems, v.totalPrice)) =
       (removeFromCart P s u pid).2.map (fun v =>
         (specTotalItems (removeFromCart P s u pid).1 v.id,
          specTotalPrice P (removeFromCart P s u pid).1 v.id))) ∧
    ((clearCart P s u).2.map (fun v => (v.totalItems, v.totalPrice)) =
       (clearCart P s u).2.map (fun v =>
         (specTotalItems (clearCart P s u).1 v.id,
          specTotalPrice P (clearCart P s u).1 v.id))) := by
  refine ⟨?_, ?_, ?_, ?_, ?_⟩
  · obtain ⟨c, hfind, hv⟩ := getCart_view P s u
    rw [hv, mkView_totalItems, mkView_totalPrice, mkView_id]
    exact ⟨rfl, rfl⟩
  · apply map_totals_eq
    intro v hv
    obtain ⟨c, hfind, hveq⟩ := addToCart_ok_view (Prod.ext rfl hv)
    rw [hveq, mkView_totalItems, mkView_totalPrice, mkView_id]
    exact ⟨rfl, rfl⟩
  · apply map_totals_eq
    intro v hv
    obtain ⟨c, hfind, hveq⟩ := updateCartItem_ok_view (Prod.ext rfl hv)
    rw [hveq, mkView_totalItems, mkView_totalPrice, mkView_id]
    exact ⟨rfl, rfl⟩
  · apply map_totals_eq
    intro v hv
    obtain ⟨c, hfind, hveq⟩ := removeFromCart_ok_view (Prod.ext rfl hv)
    rw [hveq, mkView_totalItems, mkView_totalPrice, mkView_id]
    exact ⟨rfl, rfl⟩
  · apply map_totals_eq
    intro v hv
    obtain ⟨c, hc, hs', hveq⟩ := clearCart_ok_view (Prod.ext rfl hv)
    subst hveq
    constructor
    · show (0 : Int) = specTotalItems (clearCart P s u).1 c.id
      simp only [hs', specTotalItems, itemsOf_deleteAllItems_self, List.map_nil, List.sum_nil]
    · show (0 : Rat) = specTotalPrice P (clearCart P s u).1 c.id
      simp only [hs', specTotalPrice, itemsOf_deleteAllItems_self, List.map_nil, List.sum_nil,
        round2_zero]

/-! Concrete fixtures used by witnesses and counterexamples. -/

/-- An active product with stock 5 and price 10, as in the spec scenario. -/
def prodA : Product :=
  { id := 1, title := "iPhone 14 Pro", price := { val := 10 }, thumbnail := "thumb",
    stock := 5, isActive := true }

def catA : Catalog := fun pid => if pid = 1 then some prodA else none

/-- Owner 1 already holds 3 units of product 1. -/
def storeA : Store :=
  { carts := [{ id := 1, userId := 1 }],
    items := [{ id := 1, cartId := 1, productId := 1, quantity := 3 }],
    nextCartId := 2, nextItemId := 2 }

/-- A soft-deleted product: isActive false but stock still 10. -/
def prodInactive : Product :=
  { id := 2, title := "Discontinued", price := { val := 4 }, thumbnail := "thumb",
    stock := 10, isActive := false }

def catB : Catalog := fun pid => if pid = 2 then some prodInactive else none

/-- Owner 1 holds 2 units of the now inactive product 2. -/
def storeB : Store :=
  { carts := [{ id := 1, userId := 1 }],
    items := [{ id := 1, cartId := 1, productId := 2, quantity := 2 }],
    nextCartId := 2, nextItemId := 2 }

/-- A product whose stock exceeds the validator cap of 100. -/
def prodBig : Product :=
  { id := 3, title := "Bulk", price := { val := 1 }, thumbnail := "thumb",
    stock := 200, isActive := true }

def catC : Catalog := fun pid => if pid = 3 then some prodBig else none

/-- Owner 1 already holds 100 units of product 3. -/
def storeC : Store :=
  { carts := [{ id := 1, userId := 1 }],
    items := [{ id := 1, cartId := 1, productId := 3, quantity := 100 }],
    nextCartId := 2, nextItemId := 2 }

/-- C2: the three cart routes that carry no userId pattern
(PUT /items/:productId, DELETE /items/:productId, DELETE /) run
controllers that read parseInt(req.params.userId); that parameter is
always absent, so every such request fails with the Invalid-user-ID
ValidationError no matter which authenticated identity or store is
involved, and the token identity is never consulted.  This refutes the
claim that all five operations scope the cart by the verified token
identity; the claim holds only for getCart and addToCart. -/
theorem cart_mutation_routes_never_use_token_identity (P : Catalog) (s : Store)
    (auth : AuthUser) (pid : Int) :
    deleteCartItemRoute P s auth pid = (s, .error (.validation "Invalid user ID")) ∧
    deleteCartRoute P s auth = (s, .error (.validation "Invalid user ID")) ∧
    (∀ q : Int, 1 ≤ q → q ≤ 100 →
       putCartItemRoute P s auth pid (some q) =
         (s, .error (.validation "Invalid user ID"))) := by
  refine ⟨rfl, rfl, fun q h1 h2 => ?_⟩
  have hq : intInRange (some q) 1 100 = true := by simp [intInRange]; omega
  simp only [putCartItemRoute, validateQuantityUpdate, hq, if_true]
  rfl

theorem cart_mutation_routes_never_use_token_identity_witness :
    deleteCartItemRoute catA storeA { userId := 1 } 1 =
      (storeA, .error (.validation "Invalid user ID")) ∧
    putCartItemRoute catA storeA { userId := 1 } 1 (some 2) =
      (storeA, .error (.validation "Invalid user ID")) :=
  ⟨(cart_mutation_routes_never_use_token_identity catA storeA { userId := 1 } 1).1,
   (cart_mutation_routes_never_use_token_identity catA storeA { userId := 1 } 1).2.2
     2 (by decide) (by decide)⟩

/-- C8: clearCart fails NotFound when the owner has no cart; otherwise it
deletes every item of the cart and answers with the view whose items,
totalItems and totalPrice are the literal empty list, 0 and 0 over the
cart row, independent of the item table at response time. -/
theorem clearCart_spec (P : Catalog) (s : Store) (u : Int) (hu : 1 ≤ u) :
    (findCart s u = none → clearCart P s u = (s, .error (.notFound "Cart"))) ∧
    (∀ cart : Cart, findCart s u = some cart →
      clearCart P s u =
        (deleteAllItems s cart.id,
         .ok { id := cart.id, userId := cart.userId, items := [],
               totalItems := 0, totalPrice := 0 }) ∧
      itemsOf (deleteAllItems s cart.id) cart.id = []) :=
  ⟨fun hc => clearCart_no_cart P s u hu hc,
   fun cart hc => ⟨clearCart_found P s u hu hc, itemsOf_deleteAllItems_self s cart.id⟩⟩

theorem clearCart_spec_witness :
    clearCart catA storeA 1 =
      (deleteAllItems storeA 1,
       .ok { id := 1, userId := 1, items := [], totalItems := 0, totalPrice := 0 }) ∧
    itemsOf (deleteAllItems storeA 1) 1 = [] :=
  (clearCart_spec catA storeA 1 (by decide)).2 { id := 1, userId := 1 } (by decide)

/-- C4: with the cart, the item and the product row present (products are
only ever soft deleted, so items always reference an existing product
row) and a non-negative stock, updateItemQuantity with any quantity below
1 deletes the item and returns ok, and the whole response, store
included, coincides with the response of removeItem. -/
theorem update_quantity_zero_equals_remove (P : Catalog) (s : Store) (u pid q : Int)
    {cart : Cart} {cartItem : CartItem} {product : Product}
    (hu : 1 ≤ u) (hpid : 1 ≤ pid) (hq : q < 1)
    (hc : findCart s u = some cart)
    (hi : (itemsOf s cart.id).find? (fun it => it.productId == pid) = some cartItem)
    (hP : P pid = some product) (hstock : 0 ≤ product.stock) :
    updateCartItem P s u pid q =
      (deleteItem s cartItem.id, .ok (fetchView false P (deleteItem s cartItem.id) u)) ∧
    updateCartItem P s u pid q = removeFromCart P s u pid := by
  have h1 := updateCartItem_delete P s u pid q hu hpid hc hi hP hstock hq
  have h2 := removeFromCart_found P s u pid hu hpid hc hi
  exact ⟨h1, h1.trans h2.symm⟩

theorem update_quantity_zero_equals_remove_witness :
    updateCartItem catA storeA 1 1 0 =
      (deleteItem storeA 1, .ok (fetchView false catA (deleteItem storeA 1) 1)) ∧
    updateCartItem catA storeA 1 1 0 = removeFromCart catA storeA 1 1 :=
  @update_quantity_zero_equals_remove catA storeA 1 1 0
    { id := 1, userId := 1 }
    { id := 1, cartId := 1, productId := 1, quantity := 3 }
    prodA
    (by decide) (by decide) (by decide) (by decide) (by decide) rfl (by decide)

/-- C3 counterexample: the cart of owner 1 already holds 3 units of
product 1 whose stock is 5; a request for 6 more makes the summed
quantity 9 exceed the stock, yet the controller fails with the absolute
stock message (Only 5 items available) because its requested-quantity
check fires before the merge, not with the remaining-increment message
(Cannot add 6 more. Only 2 available) the claim requires for every
over-stock sum. -/
theorem addToCart_absolute_message_counterexample :
    storeA.items = [{ id := 1, cartId := 1, productId := 1, quantity := 3 }] ∧
    prodA.stock = 5 ∧
    (addToCart catA storeA 1 1 6).2 = .error (.badRequest (.onlyAvailable 5)) ∧
    (addToCart catA storeA 1 1 6).2 ≠ .error (.badRequest (.cannotAddMore 6 2)) := by
  refine ⟨rfl, rfl, rfl, ?_⟩
  decide

/-- C3 as amended: for an existing, active product and requested quantity
at least 1: when the requested quantity alone is within stock, a missing
item is inserted with the requested quantity (whether or not the cart
already exists), an existing item whose summed quantity exceeds stock
fails BadRequest reporting the remaining increment stock minus existing
quantity, and otherwise the existing item is updated in place to the sum;
when the requested quantity alone exceeds a positive stock, the operation
instead fails BadRequest reporting the absolute stock figure. -/
theorem addToCart_merge_semantics (P : Catalog) (s : Store) (u pid q : Int)
    {product : Product} (hu : 1 ≤ u) (hP : P pid = some product)
    (hact : product.isActive = true) (hq1 : 1 ≤ q) :
    (∀ cart : Cart, findCart s u = some cart → q ≤ product.stock →
       (itemsOf s cart.id).find? (fun it => it.productId == pid) = none →
       addToCart P s u pid q =
         (insertItem s cart.id pid q,
          .ok (fetchView false P (insertItem s cart.id pid q) u))) ∧
    (findCart s u = none → q ≤ product.stock → itemsOf s s.nextCartId = [] →
       addToCart P s u pid q =
         (insertItem (createCart s u).1 (createCart s u).2.id pid q,
          .ok (fetchView false P
            (insertItem (createCart s u).1 (createCart s u).2.id pid q) u))) ∧
    (∀ (cart : Cart) (existingItem : CartItem), findCart s u = some cart →
       (itemsOf s cart.id).find? (fun it => it.productId == pid) = some existingItem →
       q ≤ product.stock → product.stock < existingItem.quantity + q →
       addToCart P s u pid q =
         (s, .error (.badRequest
           (.cannotAddMore q (product.stock - existingItem.quantity))))) ∧
    (∀ (cart : Cart) (existingItem : CartItem), findCart s u = some cart →
       (itemsOf s cart.id).find? (fun it => it.productId == pid) = some existingItem →
       q ≤ product.stock → existingItem.quantity + q ≤ product.stock →
       addToCart P s u pid q =
         (setItemQuantity s existingItem.id (existingItem.quantity + q),
          .ok (fetchView false P
            (setItemQuantity s existingItem.id (existingItem.quantity + q)) u))) ∧
    (1 ≤ product.stock → product.stock < q →
       addToCart P s u pid q = (s, .error (.badRequest (.onlyAvailable product.stock)))) := by
  refine ⟨?_, ?_, ?_, ?_, ?_⟩
  · exact fun cart hc hle hnone =>
      addToCart_insert_existing_cart P s u pid q hu hP hact hq1 hle hc hnone
  · exact fun hc hle hfresh =>
      addToCart_insert_new_cart P s u pid q hu hP hact hq1 hle hc hfresh
  · exact fun cart e hc he hle hover =>
      addToCart_merge_over_stock P s u pid q hu hP hact (by omega) hle hc he hover
  · exact fun cart e hc he hle hfits =>
      addToCart_merge_ok P s u pid q hu hP hact (by omega) hle hc he hfits
  · exact fun hs1 hover => addToCart_quantity_over_stock P s u pid q hu hP hact hs1 hover

theorem addToCart_merge_semantics_witness :
    addToCart catA storeA 1 1 2 =
      (setItemQuantity storeA 1 5,
       .ok (fetchView false catA (setItemQuantity storeA 1 5) 1)) :=
  (addToCart_merge_semantics catA storeA 1 1 2 (by decide) rfl rfl (by decide)).2.2.2.1
    { id := 1, userId := 1 } { id := 1, cartId := 1, productId := 1, quantity := 3 }
    (by decide) (by decide) (by decide) (by decide)

/-- C7 counterexample: product 2 is inactive with stock 10 and owner 1
holds 2 units of it; updateItemQuantity to 5 succeeds and raises the
stored quantity from 2 to 5, so an item of an inactive product can have
its quantity increased by a mutation, contrary to the claim. -/
theorem inactive_increase_counterexample :
    prodInactive.isActive = false ∧
    catB 2 = some prodInactive ∧
    storeB.items.map (fun it => it.quantity) = [2] ∧
    (updateCartItem catB storeB 1 2 5).2.isOk = true ∧
    ((updateCartItem catB storeB 1 2 5).1.items.map (fun it => it.quantity)) = [5] :=
  ⟨rfl, rfl, rfl, rfl, rfl⟩

/-- C7 as amended: addItem fails NotFound for a missing product and
BadRequest (Product is not available) for an inactive one, leaving the
store untouched in both cases, whatever the cart holds, so addItem can
never raise the quantity of an inactive product; reads tolerate such
items (getCart answers over the unfiltered item list without touching the
store); but updateItemQuantity performs no isActive check, so it can
still raise the quantity of an item of an inactive product up to stock. -/
theorem inactive_product_rules (P : Catalog) (s : Store) (u pid q : Int) (hu : 1 ≤ u) :
    (P pid = none → addToCart P s u pid q = (s, .error (.notFound "Product"))) ∧
    (∀ product : Product, P pid = some product → product.isActive = false →
       addToCart P s u pid q = (s, .error (.badRequest .notAvailable))) ∧
    (∀ c : Cart, findCart s u = some c → getCart P s u = (s, mkView true P s c)) :=
  ⟨fun hP => addToCart_product_missing P s u pid q hu hP,
   fun product hP hact => addToCart_inactive P s u pid q hu hP hact,
   fun c hc => by simp [getCart, hc]⟩

theorem inactive_product_rules_witness :
    addToCart catB storeB 1 2 1 = (storeB, .error (.badRequest .notAvailable)) :=
  (inactive_product_rules catB storeB 1 2 1 (by decide)).2.1 prodInactive rfl rfl

/-- C9 counterexample: a successful addItem answers item snapshots whose
select clause omitted isActive (the field is absent), while getCart does
include it, so it is not the case that every operation returns snapshots
with exactly the six fields including isActive. -/
theorem mutator_snapshot_lacks_isActive_counterexample :
    ((addToCart catA emptyStore 1 1 3).2.map
       (fun v => v.items.map (fun it => it.product.isActive))) = .ok [none] ∧
    ((getCart catA storeA 1).2.items.map (fun it => it.product.isActive)) = [some true] :=
  ⟨rfl, rfl⟩

theorem map_items_eq {P : Catalog} {s' : Store} {r : Except CartError CartView}
    (h : ∀ v, r = .ok v → v.items = (itemsOf s' v.id).map (enrichItem false P)) :
    r.map (fun v => v.items) =
      r.map (fun v => (itemsOf s' v.id).map (enrichItem false P)) := by
  cases r with
  | error e => rfl
  | ok v => simp only [Except.map, h v rfl]

/-- C9 as amended: every enriched item spreads the stored item and
carries a product snapshot with fields id, title, price, thumbnail and
stock, price being Number of the stored Decimal (a plain number) and
subtotal being that price times the quantity; getCart builds its items
with the isActive field included in the snapshot, while the successful
mutating operations build theirs with isActive absent, and clearCart
answers no items at all. -/
theorem view_shape (P : Catalog) (s : Store) (u pid q : Int) :
    (∀ (w : Bool) (it : CartItem), enrichItem w P it =
       { id := it.id, cartId := it.cartId, productId := it.productId,
         quantity := it.quantity,
         product := { id := (productOrNull P it.productId).id,
                      title := (productOrNull P it.productId).title,
                      price := (productOrNull P it.productId).price.toNumber,
                      thumbnail := (productOrNull P it.productId).thumbnail,
                      stock := (productOrNull P it.productId).stock,
                      isActive :=
                        if w then some (productOrNull P it.productId).isActive else none },
         subtotal := (productOrNull P it.productId).price.toNumber * it.quantity }) ∧
    ((getCart P s u).2.items =
       (itemsOf (getCart P s u).1 (getCart P s u).2.id).map (enrichItem true P)) ∧
    ((addToCart P s u pid q).2.map (fun v => v.items) =
       (addToCart P s u pid q).2.map
         (fun v => (itemsOf (addToCart P s u pid q).1 v.id).map (enrichItem false P))) ∧
    ((updateCartItem P s u pid q).2.map (fun v => v.items) =
       (updateCartItem P s u pid q).2.map
         (fun v => (itemsOf (updateCartItem P s u pid q).1 v.id).map (enrichItem false P))) ∧
    ((removeFromCart P s u pid).2.map (fun v => v.items) =
       (removeFromCart P s u pid).2.map
         (fun v => (itemsOf (removeFromCart P s u pid).1 v.id).map (enrichItem false P))) ∧
    ((clearCart P s u).2.map (fun v => v.items) =
       (clearCart P s u).2.map (fun _ => ([] : List ViewItem))) := by
  refine ⟨fun w it => rfl, ?_, ?_, ?_, ?_, ?_⟩
  · obtain ⟨c, hfind, hv⟩ := getCart_view P s u
    rw [hv, mkView_items, mkView_id]
  · apply map_items_eq
    intro v hv
    obtain ⟨c, hfind, hveq⟩ := addToCart_ok_view (Prod.ext rfl hv)
    rw [hveq, mkView_items, mkView_id]
  · apply map_items_eq
    intro v hv
    obtain ⟨c, hfind, hveq⟩ := updateCartItem_ok_view (Prod.ext rfl hv)
    rw [hveq, mkView_items, mkView_id]
  · apply map_items_eq
    intro v hv
    obtain ⟨c, hfind, hveq⟩ := removeFromCart_ok_view (Prod.ext rfl hv)
    rw [hveq, mkView_items, mkView_id]
  · cases hr : (clearCart P s u).2 with
    | error e => rfl
    | ok v =>
        obtain ⟨c, hc, hs', hveq⟩ := clearCart_ok_view (Prod.ext rfl hr)
        simp only [Except.map, hveq]

/-- Does a result carry a thrown ValidationError. -/
def isValidationError : Except CartError CartView → Bool
  | .error (.validation _) => true
  | _ => false

/-- C10 counterexample: product 3 has stock 200 and owner 1 already holds
100 units; a single wired add request for 1 more passes the validator and
merges to a stored quantity of 101, above the 100 cap the claim asserts
no single request can exceed. -/
theorem add_merge_exceeds_cap_counterexample :
    validateCartItem (some 3) (some 1) = none ∧
    storeC.items.map (fun it => it.quantity) = [100] ∧
    (postCartItemsRoute catC storeC { userId := 1 } (some 3) (some 1)).2.isOk = true ∧
    ((postCartItemsRoute catC storeC { userId := 1 } (some 3) (some 1)).1.items.map
       (fun it => it.quantity)) = [101] :=
  ⟨rfl, rfl, rfl, rfl⟩

/-- On the no-existing-item path any item of the post store that was not
already stored is the freshly inserted one, carrying the requested
product id and quantity. -/
theorem addToCart_no_existing_inserted {P : Catalog} {s : Store} {u pid q : Int} {cart : Cart}
    (hc : findCart s u = some cart)
    (hnone : (itemsOf s cart.id).find? (fun it => it.productId == pid) = none) :
    ∀ it ∈ (addToCart P s u pid q).1.items, it ∉ s.items →
      it.productId = pid ∧ it.quantity = q := by
  simp only [addToCart]
  split
  · exact fun it hmem hnot => absurd hmem hnot
  · split
    · exact fun it hmem hnot => absurd hmem hnot
    · split
      · exact fun it hmem hnot => absurd hmem hnot
      · split
        · exact fun it hmem hnot => absurd hmem hnot
        · split
          · exact fun it hmem hnot => absurd hmem hnot
          · rw [hc]
            simp only [hnone]
            intro it hmem hnot
            simp only [insertItem, List.mem_append, List.mem_singleton] at hmem
            rcases hmem with hmem | hmem
            · exact absurd hmem hnot
            · subst hmem
              exact ⟨rfl, rfl⟩

/-- C10 as amended: the validator chains reject, with a ValidationError
thrown before any controller runs, every add or update request whose
quantity is not an integer between 1 and 100; a passing add request
reaches addToCart with a quantity at most 100, so a newly created item
never starts above 100; but a passing add request that merges into an
existing item can leave a stored quantity above 100. -/
theorem quantity_validator_cap (P : Catalog) (s : Store) (auth : AuthUser)
    (bodyProductId bodyQuantity : Option Int) (paramProductId : Int) :
    (intInRange bodyQuantity 1 100 = false →
       (postCartItemsRoute P s auth bodyProductId bodyQuantity).1 = s ∧
       isValidationError (postCartItemsRoute P s auth bodyProductId bodyQuantity).2 = true) ∧
    (intInRange bodyQuantity 1 100 = false →
       putCartItemRoute P s auth paramProductId bodyQuantity =
         (s, .error (.validation quantityRangeMsg))) ∧
    (∀ q : Int, bodyQuantity = some q →
       validateCartItem bodyProductId bodyQuantity = none →
       1 ≤ q ∧ q ≤ 100 ∧
       postCartItemsRoute P s auth bodyProductId bodyQuantity =
         addToCart P s auth.userId (bodyProductId.getD 0) q) ∧
    (∀ (q : Int) (cart : Cart), bodyQuantity = some q →
       validateCartItem bodyProductId bodyQuantity = none →
       findCart s auth.userId = some cart →
       (itemsOf s cart.id).find?
         (fun it => it.productId == bodyProductId.getD 0) = none →
       ∀ it ∈ (postCartItemsRoute P s auth bodyProductId bodyQuantity).1.items,
         it ∉ s.items → it.quantity ≤ 100) := by
  have hrange : ∀ q : Int, bodyQuantity = some q →
      validateCartItem bodyProductId bodyQuantity = none → 1 ≤ q ∧ q ≤ 100 := by
    intro q hq hvalid
    subst hq
    by_cases h : intInRange (some q) 1 100 = true
    · simp only [intInRange, Bool.and_eq_true, decide_eq_true_eq] at h
      exact h
    · exfalso
      rw [validateCartItem] at hvalid
      rw [Bool.not_eq_true] at h
      cases hpid : intAtLeast bodyProductId 1 <;>
        simp [hpid, h] at hvalid
  refine ⟨?_, ?_, ?_, ?_⟩
  · intro h
    rw [postCartItemsRoute, validateCartItem]
    cases hpid : intAtLeast bodyProductId 1 <;>
      simp [hpid, h, isValidationError]
  · intro h
    rw [putCartItemRoute, validateQuantityUpdate, h]
    rfl
  · intro q hq hvalid
    obtain ⟨h1, h2⟩ := hrange q hq hvalid
    refine ⟨h1, h2, ?_⟩
    rw [postCartItemsRoute, hvalid]
    subst hq
    rfl
  · intro q cart hq hvalid hc hnone it hmem hnot
    obtain ⟨h1, h2⟩ := hrange q hq hvalid
    rw [postCartItemsRoute, hvalid] at hmem
    subst hq
    simp only [Option.getD_some] at hmem
    have := addToCart_no_existing_inserted hc hnone it hmem hnot
    omega

theorem quantity_validator_cap_witness :
    putCartItemRoute catA storeA { userId := 1 } 1 (some 0) =
      (storeA, .error (.validation quantityRangeMsg)) :=
  (quantity_validator_cap catA storeA { userId := 1 } (some 1) (some 0) 1).2.1 (by decide)

/-! Traces of sequentially executed operations.  Each step carries the
catalog in force at that request (product stock and price may be changed
between requests by the product controllers, which never delete rows),
and the operation performed.  A ghost map from item id to the stock
figure read at that item's last successful mutation accompanies the
store; the stock-bound invariant is stated against it. -/

inductive OpStep where
  | get (userId : Int)
  | add (userId productId quantity : Int)
  | update (userId productId quantity : Int)
  | remove (userId productId : Int)
  | clear (userId : Int)

/-- The store after one controller call (the response is dropped). -/
def applyOp (P : Catalog) (s : Store) : OpStep → Store
  | .get u => (getCart P s u).1
  | .add u pid q => (addToCart P s u pid q).1
  | .update u pid q => (updateCartItem P s u pid q).1
  | .remove u pid => (removeFromCart P s u pid).1
  | .clear u => (clearCart P s u).1

/-- Whether item id i is, in store s2, the item of owner u for product
pid: the item whose quantity the successful mutation just wrote. -/
def touched (s2 : Store) (u pid i : Int) : Bool :=
  s2.items.any (fun it => it.id == i && it.productId == pid &&
    (match findCart s2 u with
     | some c => it.cartId == c.id
     | none => false))

/-- The stock figure the controller read for pid from the catalog in
force at the step. -/
def stockAt (P : Catalog) (pid : Int) : Int := (productOrNull P pid).stock

/-- Ghost update: a successful addItem or updateItemQuantity records, for
the (owner, product) item it just wrote, the stock read at this step;
failed calls and the other operations record nothing. -/
def applyGhost (P : Catalog) (s : Store) (g : Int → Int) : OpStep → (Int → Int)
  | .add u pid q =>
      match (addToCart P s u pid q).2 with
      | .ok _ => fun i =>
          if touched (addToCart P s u pid q).1 u pid i then stockAt P pid else g i
      | .error _ => g
  | .update u pid q =>
      match (updateCartItem P s u pid q).2 with
      | .ok _ => fun i =>
          if touched (updateCartItem P s u pid q).1 u pid i then stockAt P pid else g i
      | .error _ => g
  | _ => g

/-- One step of a trace: the catalog in force, and the operation. -/
structure TraceStep where
  catalog : Catalog
  op : OpStep

def initGhost : Int → Int := fun _ => 0

/-- Run a trace left to right from a store and ghost map. -/
def runTrace : Store × (Int → Int) → List TraceStep → Store × (Int → Int)
  | sg, [] => sg
  | sg, stp :: rest =>
      runTrace (applyOp stp.catalog sg.1 stp.op,
                applyGhost stp.catalog sg.1 sg.2 stp.op) rest

/-- Invariant carried through every trace: autoincrement freshness of
item and cart ids, per-(cartId, productId) uniqueness, and the stock
bound of every stored quantity against the ghost map. -/
structure StoreInv (s : Store) (g : Int → Int) : Prop where
  idLt : ∀ it ∈ s.items, it.id < s.nextItemId
  idNodup : (s.items.map (fun it => it.id)).Nodup
  cartIdLtItems : ∀ it ∈ s.items, it.cartId < s.nextCartId
  cartIdLtCarts : ∀ c ∈ s.carts, c.id < s.nextCartId
  pairNodup : (s.items.map (fun it => (it.cartId, it.productId))).Nodup
  bound : ∀ it ∈ s.items, it.quantity ≤ g it.id

theorem inv_emptyStore : StoreInv emptyStore initGhost := by
  constructor <;> simp [emptyStore]

theorem touched_iff {s2 : Store} {u pid i : Int} :
    touched s2 u pid i = true ↔
      ∃ it ∈ s2.items, it.id = i ∧ it.productId = pid ∧
        ∃ c, findCart s2 u = some c ∧ it.cartId = c.id := by
  simp only [touched, List.any_eq_true, Bool.and_eq_true, beq_iff_eq]
  constructor
  · rintro ⟨it, hmem, ⟨hid, hpid⟩, hcart⟩
    cases hfc : findCart s2 u with
    | some c =>
        rw [hfc] at hcart
        simp only [beq_iff_eq] at hcart
        exact ⟨it, hmem, hid, hpid, c, rfl, hcart⟩
    | none => rw [hfc] at hcart; simp at hcart
  · rintro ⟨it, hmem, hid, hpid, c, hfc, hcart⟩
    refine ⟨it, hmem, ⟨hid, hpid⟩, ?_⟩
    rw [hfc]
    simp [hcart]

theorem storeInv_filter {s : Store} {g : Int → Int} (h : StoreInv s g) (p : CartItem → Bool) :
    StoreInv { s with items := s.items.filter p } g := by
  have hsub : List.Sublist (s.items.filter p) s.items := List.filter_sublist _
  constructor
  · exact fun it hmem => h.idLt it (hsub.subset hmem)
  · exact h.idNodup.sublist (hsub.map _)
  · exact fun it hmem => h.cartIdLtItems it (hsub.subset hmem)
  · exact h.cartIdLtCarts
  · exact h.pairNodup.sublist (hsub.map _)
  · exact fun it hmem => h.bound it (hsub.subset hmem)

theorem storeInv_createCart {s : Store} {g : Int → Int} (h : StoreInv s g) (u : Int) :
    StoreInv (createCart s u).1 g := by
  constructor
  · exact h.idLt
  · exact h.idNodup
  · intro it hmem
    have := h.cartIdLtItems it hmem
    show it.cartId < s.nextCartId + 1
    omega
  · intro c hmem
    simp only [createCart, List.mem_append, List.mem_singleton] at hmem
    show c.id < s.nextCartId + 1
    rcases hmem with hmem | hmem
    · have := h.cartIdLtCarts c hmem; omega
    · subst hmem; simp
  · exact h.pairNodup
  · exact h.bound

theorem storeInv_get {P : Catalog} {s : Store} {g : Int → Int} {u : Int} (h : StoreInv s g) :
    StoreInv (applyOp P s (.get u)) (applyGhost P s g (.get u)) := by
  show StoreInv (getCart P s u).1 g
  cases hfc : findCart s u with
  | some c => simpa [getCart, hfc] using h
  | none => simpa [getCart, hfc] using storeInv_createCart h u

theorem storeInv_remove {P : Catalog} {s : Store} {g : Int → Int} {u pid : Int}
    (h : StoreInv s g) :
    StoreInv (applyOp P s (.remove u pid)) (applyGhost P s g (.remove u pid)) := by
  show StoreInv (removeFromCart P s u pid).1 g
  simp only [removeFromCart]
  split
  · exact h
  · split
    · exact h
    · split
      · exact h
      · split
        · exact h
        · exact storeInv_filter h _

theorem storeInv_clear {P : Catalog} {s : Store} {g : Int → Int} {u : Int}
    (h : StoreInv s g) :
    StoreInv (applyOp P s (.clear u)) (applyGhost P s g (.clear u)) := by
  show StoreInv (clearCart P s u).1 g
  simp only [clearCart]
  split
  · exact h
  · split
    · exact h
    · exact storeInv_filter h _

theorem eq_of_id_nodup {s : Store} {g : Int → Int} (h : StoreInv s g)
    {it1 it2 : CartItem} (h1 : it1 ∈ s.items) (h2 : it2 ∈ s.items)
    (hid : it1.id = it2.id) : it1 = it2 :=
  List.inj_on_of_nodup_map h.idNodup h1 h2 hid

theorem eq_of_pair_nodup {s : Store} {g : Int → Int} (h : StoreInv s g)
    {it1 it2 : CartItem} (h1 : it1 ∈ s.items) (h2 : it2 ∈ s.items)
    (hcart : it1.cartId = it2.cartId) (hpid : it1.productId = it2.productId) : it1 = it2 :=
  List.inj_on_of_nodup_map h.pairNodup h1 h2 (by rw [Prod.mk.injEq]; exact ⟨hcart, hpid⟩)

theorem find?_itemsOf_some {s : Store} {cid pid : Int} {e : CartItem}
    (he : (itemsOf s cid).find? (fun it => it.productId == pid) = some e) :
    e ∈ s.items ∧ e.cartId = cid ∧ e.productId = pid := by
  have hmem := List.mem_of_find?_eq_some he
  have hp := List.find?_some he
  rw [mem_itemsOf] at hmem
  simp only [beq_iff_eq] at hp
  exact ⟨hmem.1, hmem.2, hp⟩

/-- After deleting the unique (cart, product) item, no remaining item is
the owner-product item, so the ghost update leaves every remaining bound
unchanged. -/
theorem storeInv_delete_ghost {s : Store} {g : Int → Int} {cart : Cart}
    {cartItem : CartItem} {u pid gstock : Int}
    (h : StoreInv s g) (hc : findCart s u = some cart)
    (hmem0 : cartItem ∈ s.items) (hcart0 : cartItem.cartId = cart.id)
    (hpid0 : cartItem.productId = pid) :
    StoreInv (deleteItem s cartItem.id)
      (fun i => if touched (deleteItem s cartItem.id) u pid i then gstock else g i) := by
  have hbase := storeInv_filter h (fun it => !(it.id == cartItem.id))
  refine ⟨hbase.idLt, hbase.idNodup, hbase.cartIdLtItems, hbase.cartIdLtCarts,
    hbase.pairNodup, ?_⟩
  intro it hmem
  have hmem' : it ∈ s.items := (List.filter_sublist _).subset hmem
  have hne : it.id ≠ cartItem.id := by
    have hkeep := (List.mem_filter.mp hmem).2
    simpa using hkeep
  have htouch : touched (deleteItem s cartItem.id) u pid it.id = false := by
    rw [Bool.eq_false_iff]
    intro hT
    obtain ⟨w, hwmem, hwid, hwpid, c, hfc, hwcart⟩ := touched_iff.mp hT
    have hwmem' : w ∈ s.items := (List.filter_sublist _).subset hwmem
    have hweq : w = it := eq_of_id_nodup h hwmem' hmem' hwid
    have hceq : c = cart := by
      rw [findCart_deleteItem, hc] at hfc
      exact (Option.some.injEq _ _).mp hfc.symm
    have hitpid : it.productId = pid := hweq ▸ hwpid
    have hitcart : it.cartId = cart.id := by rw [← hweq, hwcart, hceq]
    have : it = cartItem :=
      eq_of_pair_nodup h hmem' hmem0 (by rw [hitcart, hcart0]) (by rw [hitpid, hpid0])
    exact hne (by rw [this])
  simp only [htouch, if_false]
  exact h.bound it hmem'

theorem setFun_id (iid q : Int) (it : CartItem) :
    (if it.id == iid then { it with quantity := q } else it).id = it.id := by
  by_cases h : it.id = iid <;> simp [h]

theorem setFun_cartId (iid q : Int) (it : CartItem) :
    (if it.id == iid then { it with quantity := q } else it).cartId = it.cartId := by
  by_cases h : it.id = iid <;> simp [h]

theorem setFun_productId (iid q : Int) (it : CartItem) :
    (if it.id == iid then { it with quantity := q } else it).productId = it.productId := by
  by_cases h : it.id = iid <;> simp [h]

theorem setItemQuantity_map_id (s : Store) (iid q : Int) :
    (setItemQuantity s iid q).items.map (fun it => it.id) =
      s.items.map (fun it => it.id) := by
  simp only [setItemQuantity, List.map_map]
  congr 1
  funext it
  simp only [Function.comp_apply]
  exact setFun_id iid q it

theorem setItemQuantity_map_pair (s : Store) (iid q : Int) :
    (setItemQuantity s iid q).items.map (fun it => (it.cartId, it.productId)) =
      s.items.map (fun it => (it.cartId, it.productId)) := by
  simp only [setItemQuantity, List.map_map]
  congr 1
  funext it
  simp only [Function.comp_apply]
  rw [Prod.mk.injEq]
  exact ⟨setFun_cartId iid q it, setFun_productId iid q it⟩

/-- Rewriting the quantity of the unique (cart, product) item to newQ and
recording a ghost bound of at least newQ for it preserves the invariant. -/
theorem storeInv_set_ghost {s : Store} {g : Int → Int} {cart : Cart} {e : CartItem}
    {u pid newQ gstock : Int}
    (h : StoreInv s g) (hc : findCart s u = some cart)
    (hmem0 : e ∈ s.items) (hcart0 : e.cartId = cart.id) (hpid0 : e.productId = pid)
    (hqle : newQ ≤ gstock) :
    StoreInv (setItemQuantity s e.id newQ)
      (fun i => if touched (setItemQuantity s e.id newQ) u pid i then gstock else g i) := by
  have hfc2 : findCart (setItemQuantity s e.id newQ) u = some cart := by
    rw [findCart_setItemQuantity]; exact hc
  refine ⟨?_, ?_, ?_, ?_, ?_, ?_⟩
  · intro it' hmem'
    simp only [setItemQuantity, List.mem_map] at hmem'
    obtain ⟨it, hit, heq⟩ := hmem'
    subst heq
    show _ < s.nextItemId
    rw [setFun_id]
    exact h.idLt it hit
  · show ((setItemQuantity s e.id newQ).items.map (fun it => it.id)).Nodup
    rw [setItemQuantity_map_id]
    exact h.idNodup
  · intro it' hmem'
    simp only [setItemQuantity, List.mem_map] at hmem'
    obtain ⟨it, hit, heq⟩ := hmem'
    subst heq
    show _ < s.nextCartId
    rw [setFun_cartId]
    exact h.cartIdLtItems it hit
  · exact h.cartIdLtCarts
  · show ((setItemQuantity s e.id newQ).items.map
      (fun it => (it.cartId, it.productId))).Nodup
    rw [setItemQuantity_map_pair]
    exact h.pairNodup
  · intro it' hmem'
    simp only [setItemQuantity, List.mem_map] at hmem'
    obtain ⟨it, hit, heq⟩ := hmem'
    subst heq
    by_cases hid : it.id = e.id
    · have hite : it = e := eq_of_id_nodup h hit hmem0 hid
      subst hite
      have htouch : touched (setItemQuantity s it.id newQ) u pid
          ((if it.id == it.id then { it with quantity := newQ } else it).id) = true := by
        rw [setFun_id]
        apply touched_iff.mpr
        refine ⟨(if it.id == it.id then { it with quantity := newQ } else it), ?_, ?_, ?_,
          cart, ?_, ?_⟩
        · simp only [setItemQuantity, List.mem_map]
          exact ⟨it, hit, rfl⟩
        · rw [setFun_id]
        · rw [setFun_productId]; exact hpid0
        · exact hfc2
        · rw [setFun_cartId]; exact hcart0
      simp only [htouch, if_true]
      have hself : (if it.id == it.id then { it with quantity := newQ } else it).quantity
          = newQ := by simp
      rw [hself]
      exact hqle
    · have hkeep : (if it.id == e.id then { it with quantity := newQ } else it) = it := by
        simp [hid]
      rw [hkeep]
      have htouch : touched (setItemQuantity s e.id newQ) u pid it.id = false := by
        rw [Bool.eq_false_iff]
        intro hT
        obtain ⟨w, hwmem, hwid, hwpid, c, hfc, hwcart⟩ := touched_iff.mp hT
        simp only [setItemQuantity, List.mem_map] at hwmem
        obtain ⟨w0, hw0, heqw⟩ := hwmem
        have hwid0 : w0.id = it.id := by
          rw [← setFun_id e.id newQ w0, heqw, hwid]
        have hw0it : w0 = it := eq_of_id_nodup h hw0 hit hwid0
        have hceq : c = cart := by
          rw [hfc2] at hfc
          exact (Option.some.injEq _ _).mp hfc.symm
        have hwpid0 : w0.productId = pid := by
          rw [← setFun_productId e.id newQ w0, heqw]; exact hwpid
        have hwcart0 : w0.cartId = cart.id := by
          rw [← setFun_cartId e.id newQ w0, heqw, hwcart, hceq]
        have hw0e : w0 = e :=
          eq_of_pair_nodup h hw0 hmem0 (by rw [hwcart0, hcart0]) (by rw [hwpid0, hpid0])
        exact hid (by rw [← hw0it, hw0e])
      simp only [htouch, if_false]
      exact h.bound it hit


/-- Inserting a fresh item for a (cart, product) pair the cart does not
yet hold, recording a ghost bound of at least its quantity, preserves the
invariant. -/
theorem storeInv_insert_ghost {s : Store} {g : Int → Int} {cart : Cart}
    {u pid q gstock : Int}
    (h : StoreInv s g)
    (hfc2 : findCart (insertItem s cart.id pid q) u = some cart)
    (hcmem : cart ∈ s.carts)
    (hnone : ∀ it ∈ s.items, ¬(it.cartId = cart.id ∧ it.productId = pid))
    (hqle : q ≤ gstock) :
    StoreInv (insertItem s cart.id pid q)
      (fun i => if touched (insertItem s cart.id pid q) u pid i then gstock else g i) := by
  refine ⟨?_, ?_, ?_, ?_, ?_, ?_⟩
  · intro it hmem
    simp only [insertItem, List.mem_append, List.mem_singleton] at hmem
    show it.id < s.nextItemId + 1
    rcases hmem with hmem | hmem
    · have := h.idLt it hmem; omega
    · subst hmem
      show s.nextItemId < s.nextItemId + 1
      omega
  · show ((s.items ++ [newItem s cart.id pid q]).map (fun it => it.id)).Nodup
    rw [List.map_append, List.nodup_append]
    refine ⟨h.idNodup, by simp, ?_⟩
    intro a ha hb
    simp only [List.map_cons, List.map_nil, List.mem_singleton] at hb
    obtain ⟨it, hit, hida⟩ := List.mem_map.mp ha
    have hlt := h.idLt it hit
    have ha' : a = s.nextItemId := hb
    omega
  · intro it hmem
    simp only [insertItem, List.mem_append, List.mem_singleton] at hmem
    show it.cartId < s.nextCartId
    rcases hmem with hmem | hmem
    · exact h.cartIdLtItems it hmem
    · subst hmem
      exact h.cartIdLtCarts cart hcmem
  · exact h.cartIdLtCarts
  · show ((s.items ++ [newItem s cart.id pid q]).map
      (fun it => (it.cartId, it.productId))).Nodup
    rw [List.map_append, List.nodup_append]
    refine ⟨h.pairNodup, by simp, ?_⟩
    intro a ha hb
    simp only [List.map_cons, List.map_nil, List.mem_singleton] at hb
    obtain ⟨it, hit, hpa⟩ := List.mem_map.mp ha
    subst hb
    rw [Prod.mk.injEq] at hpa
    exact hnone it hit ⟨hpa.1, hpa.2⟩
  · intro it hmem
    simp only [insertItem, List.mem_append, List.mem_singleton] at hmem
    rcases hmem with hmem | hmem
    · have htouch : touched (insertItem s cart.id pid q) u pid it.id = false := by
        rw [Bool.eq_false_iff]
        intro hT
        obtain ⟨w, hwmem, hwid, hwpid, c, hfc, hwcart⟩ := touched_iff.mp hT
        have hceq : c = cart := by
          rw [hfc2] at hfc
          exact (Option.some.injEq _ _).mp hfc.symm
        simp only [insertItem, List.mem_append, List.mem_singleton] at hwmem
        rcases hwmem with hwmem | hwmem
        · have hweq : w = it := eq_of_id_nodup h hwmem hmem hwid
          have hpid' : it.productId = pid := hweq ▸ hwpid
          have hcart' : it.cartId = cart.id := by rw [← hweq, hwcart, hceq]
          exact hnone it hmem ⟨hcart', hpid'⟩
        · subst hwmem
          have hlt := h.idLt it hmem
          have hid' : s.nextItemId = it.id := hwid
          omega
      simp only [htouch, if_false]
      exact h.bound it hmem
    · subst hmem
      have htouch : touched (insertItem s cart.id pid q) u pid
          (newItem s cart.id pid q).id = true := by
        apply touched_iff.mpr
        refine ⟨newItem s cart.id pid q, ?_, rfl, rfl, cart, hfc2, rfl⟩
        simp [insertItem]
      simp only [htouch, if_true]
      exact hqle

theorem storeInv_updateOp {P : Catalog} {s : Store} {g : Int → Int} {u pid q : Int}
    (h : StoreInv s g) :
    StoreInv (applyOp P s (.update u pid q)) (applyGhost P s g (.update u pid q)) := by
  show StoreInv (updateCartItem P s u pid q).1
    (match (updateCartItem P s u pid q).2 with
     | .ok _ => fun i =>
         if touched (updateCartItem P s u pid q).1 u pid i then stockAt P pid else g i
     | .error _ => g)
  rcases hres : updateCartItem P s u pid q with ⟨s', r⟩
  simp only [hres]
  revert hres
  simp only [updateCartItem]
  split
  · intro hres
    rw [Prod.mk.injEq] at hres
    obtain ⟨hs', hr⟩ := hres
    subst hs'; subst hr
    exact h
  · split
    · intro hres
      rw [Prod.mk.injEq] at hres
      obtain ⟨hs', hr⟩ := hres
      subst hs'; subst hr
      exact h
    · split
      · intro hres
        rw [Prod.mk.injEq] at hres
        obtain ⟨hs', hr⟩ := hres
        subst hs'; subst hr
        exact h
      · rename_i cart hc
        split
        · intro hres
          rw [Prod.mk.injEq] at hres
          obtain ⟨hs', hr⟩ := hres
          subst hs'; subst hr
          exact h
        · rename_i cartItem hi
          split
          · intro hres
            rw [Prod.mk.injEq] at hres
            obtain ⟨hs', hr⟩ := hres
            subst hs'; subst hr
            exact h
          · rename_i product hP
            split
            · intro hres
              rw [Prod.mk.injEq] at hres
              obtain ⟨hs', hr⟩ := hres
              subst hs'; subst hr
              exact h
            · split
              · intro hres
                rw [Prod.mk.injEq] at hres
                obtain ⟨hs', hr⟩ := hres
                subst hs'; subst hr
                obtain ⟨hmem0, hcart0, hpid0⟩ := find?_itemsOf_some hi
                exact storeInv_delete_ghost h hc hmem0 hcart0 hpid0
              · intro hres
                rw [Prod.mk.injEq] at hres
                obtain ⟨hs', hr⟩ := hres
                subst hs'; subst hr
                obtain ⟨hmem0, hcart0, hpid0⟩ := find?_itemsOf_some hi
                refine storeInv_set_ghost h hc hmem0 hcart0 hpid0 ?_
                rename_i hstock hq1
                simp only [stockAt, productOrNull, hP, Option.getD_some]
                omega

theorem hnone_of_find?_none {s : Store} {cid pid : Int}
    (hi : (itemsOf s cid).find? (fun it => it.productId == pid) = none) :
    ∀ it ∈ s.items, ¬(it.cartId = cid ∧ it.productId = pid) := by
  intro it hmem ⟨hcart, hpid⟩
  have := find?_eq_none_iff.mp hi it (mem_itemsOf.mpr ⟨hmem, hcart⟩)
  simp [hpid] at this

theorem storeInv_addOp {P : Catalog} {s : Store} {g : Int → Int} {u pid q : Int}
    (h : StoreInv s g) :
    StoreInv (applyOp P s (.add u pid q)) (applyGhost P s g (.add u pid q)) := by
  show StoreInv (addToCart P s u pid q).1
    (match (addToCart P s u pid q).2 with
     | .ok _ => fun i =>
         if touched (addToCart P s u pid q).1 u pid i then stockAt P pid else g i
     | .error _ => g)
  rcases hres : addToCart P s u pid q with ⟨s', r⟩
  simp only [hres]
  revert hres
  simp only [addToCart]
  split
  · intro hres
    rw [Prod.mk.injEq] at hres
    obtain ⟨hs', hr⟩ := hres
    subst hs'; subst hr
    exact h
  · split
    · intro hres
      rw [Prod.mk.injEq] at hres
      obtain ⟨hs', hr⟩ := hres
      subst hs'; subst hr
      exact h
    · rename_i product hP
      split
      · intro hres
        rw [Prod.mk.injEq] at hres
        obtain ⟨hs', hr⟩ := hres
        subst hs'; subst hr
        exact h
      · split
        · intro hres
          rw [Prod.mk.injEq] at hres
          obtain ⟨hs', hr⟩ := hres
          subst hs'; subst hr
          exact h
        · split
          · intro hres
            rw [Prod.mk.injEq] at hres
            obtain ⟨hs', hr⟩ := hres
            subst hs'; subst hr
            exact h
          · rename_i hact hstock1 hstockq
            have hqle : q ≤ stockAt P pid := by
              simp only [stockAt, productOrNull, hP, Option.getD_some]
              omega
            cases hfc : findCart s u with
            | some cart =>
                simp only [hfc]
                split
                · rename_i existingItem hi
                  split
                  · intro hres
                    rw [Prod.mk.injEq] at hres
                    obtain ⟨hs', hr⟩ := hres
                    subst hs'; subst hr
                    exact h
                  · rename_i hfits
                    intro hres
                    rw [Prod.mk.injEq] at hres
                    obtain ⟨hs', hr⟩ := hres
                    subst hs'; subst hr
                    obtain ⟨hmem0, hcart0, hpid0⟩ := find?_itemsOf_some hi
                    refine storeInv_set_ghost h hfc hmem0 hcart0 hpid0 ?_
                    simp only [stockAt, productOrNull, hP, Option.getD_some]
                    omega
                · rename_i hi
                  intro hres
                  rw [Prod.mk.injEq] at hres
                  obtain ⟨hs', hr⟩ := hres
                  subst hs'; subst hr
                  refine storeInv_insert_ghost h ?_ ?_ ?_ hqle
                  · rw [findCart_insertItem]; exact hfc
                  · exact (findCart_eq_some hfc).1
                  · exact hnone_of_find?_none hi
            | none =>
                simp only [hfc]
                have hbase := storeInv_createCart h u
                have hfc1 : findCart (createCart s u).1 u = some (createCart s u).2 :=
                  findCart_createCart_self s u hfc
                split
                · rename_i existingItem hi
                  split
                  · intro hres
                    rw [Prod.mk.injEq] at hres
                    obtain ⟨hs', hr⟩ := hres
                    subst hs'; subst hr
                    exact hbase
                  · rename_i hfits
                    intro hres
                    rw [Prod.mk.injEq] at hres
                    obtain ⟨hs', hr⟩ := hres
                    subst hs'; subst hr
                    obtain ⟨hmem0, hcart0, hpid0⟩ := find?_itemsOf_some hi
                    refine storeInv_set_ghost hbase hfc1 hmem0 hcart0 hpid0 ?_
                    simp only [stockAt, productOrNull, hP, Option.getD_some]
                    omega
                · rename_i hi
                  intro hres
                  rw [Prod.mk.injEq] at hres
                  obtain ⟨hs', hr⟩ := hres
                  subst hs'; subst hr
                  refine storeInv_insert_ghost hbase ?_ ?_ ?_ hqle
                  · rw [findCart_insertItem]; exact hfc1
                  · show (createCart s u).2 ∈ (createCart s u).1.carts
                    simp [createCart]
                  · exact hnone_of_find?_none hi

theorem storeInv_applyOp {P : Catalog} {s : Store} {g : Int → Int} (op : OpStep)
    (h : StoreInv s g) : StoreInv (applyOp P s op) (applyGhost P s g op) := by
  cases op with
  | get u => exact storeInv_get h
  | add u pid q => exact storeInv_addOp h
  | update u pid q => exact storeInv_updateOp h
  | remove u pid => exact storeInv_remove h
  | clear u => exact storeInv_clear h

theorem storeInv_runTrace (steps : List TraceStep) :
    ∀ sg : Store × (Int → Int), StoreInv sg.1 sg.2 →
      StoreInv (runTrace sg steps).1 (runTrace sg steps).2 := by
  induction steps with
  | nil => exact fun sg h => h
  | cons stp rest ih =>
      intro sg h
      exact ih _ (storeInv_applyOp stp.op h)

theorem nodup_pid_of_nodup_pairs (l : List CartItem)
    (h : (l.map (fun it => (it.cartId, it.productId))).Nodup) (cid : Int) :
    ((l.filter (fun it => it.cartId == cid)).map (fun it => it.productId)).Nodup := by
  induction l with
  | nil => simp
  | cons hd tl ih =>
      simp only [List.map_cons, List.nodup_cons] at h
      obtain ⟨hnotin, htl⟩ := h
      by_cases hc : hd.cartId = cid
      · rw [List.filter_cons_of_pos (by simp [hc])]
        rw [List.map_cons, List.nodup_cons]
        refine ⟨?_, ih htl⟩
        intro hmem
        obtain ⟨it, hit, hpid⟩ := List.mem_map.mp hmem
        have hitc : it.cartId = cid := by
          have := (List.mem_filter.mp hit).2
          simpa using this
        refine hnotin ?_
        apply List.mem_map.mpr
        refine ⟨it, (List.mem_filter.mp hit).1, ?_⟩
        rw [Prod.mk.injEq]
        exact ⟨by rw [hitc, hc], hpid⟩
      · rw [List.filter_cons_of_neg (by simp [hc])]
        exact ih htl

/-- C1: along every trace of sequentially executed cart operations from
the empty store (in particular every sequence of addItem and
updateItemQuantity calls, each step under the catalog then in force),
every stored item quantity is at most the ghost bound of its id, and the
ghost records, at each successful addItem or updateItemQuantity, the
catalog stock read at that step for the item just written — that is, the
stock at the time of the item's last successful mutation.  The two
mutating operations fail rather than write a quantity above that stock. -/
theorem stock_bound_invariant (steps : List TraceStep) :
    ∀ it ∈ (runTrace (emptyStore, initGhost) steps).1.items,
      it.quantity ≤ (runTrace (emptyStore, initGhost) steps).2 it.id :=
  (storeInv_runTrace steps (emptyStore, initGhost) inv_emptyStore).bound

theorem stock_bound_invariant_witness :
    ({ id := 1, cartId := 1, productId := 1, quantity := 3 } : CartItem) ∈
      (runTrace (emptyStore, initGhost) [{ catalog := catA, op := .add 1 1 3 }]).1.items ∧
    (3 : Int) ≤
      (runTrace (emptyStore, initGhost) [{ catalog := catA, op := .add 1 1 3 }]).2 1 :=
  ⟨by decide,
   stock_bound_invariant [{ catalog := catA, op := .add 1 1 3 }]
     { id := 1, cartId := 1, productId := 1, quantity := 3 } (by decide)⟩

/-- C6: after any sequence of cart operations from the empty store, no
cart holds two items with the same productId: the productId list of any
found cart is duplicate free. -/
theorem cart_productId_unique (steps : List TraceStep) :
    ∀ (u : Int) (c : Cart),
      findCart (runTrace (emptyStore, initGhost) steps).1 u = some c →
      ((itemsOf (runTrace (emptyStore, initGhost) steps).1 c.id).map
        (fun it => it.productId)).Nodup := by
  intro u c hc
  exact nodup_pid_of_nodup_pairs _
    (storeInv_runTrace steps (emptyStore, initGhost) inv_emptyStore).pairNodup c.id

theorem cart_productId_unique_witness :
    findCart (runTrace (emptyStore, initGhost)
        [{ catalog := catA, op := .add 1 1 3 }]).1 1 = some { id := 1, userId := 1 } ∧
    ((itemsOf (runTrace (emptyStore, initGhost)
        [{ catalog := catA, op := .add 1 1 3 }]).1 1).map
      (fun it => it.productId)).Nodup :=
  ⟨by decide,
   cart_productId_unique [{ catalog := catA, op := .add 1 1 3 }] 1
     { id := 1, userId := 1 } (by decide)⟩
